import Mathlib

/-!
Verification development for the school-lunch-menu → ICS calendar pipeline
(`fetch_from_json.py`, `fetch_menu.py`, `fetch_menu_simple.py`,
`fetch_menu_pdf.py`, `config.py`).

The Python payloads are JSON-like trees; we embed them as `JVal` and give
the Python-semantics helpers (truthiness, `dict.get`, `in`, iteration,
`str`) the code relies on.  Calendar dates are `PyDate` triples with the
validity rules of `datetime.datetime`.  The external `dateutil` date
parser is modelled by `dateutil_parse` for exactly the date-string shapes
this repository constructs.
-/

/-- Python `\s` / `str.strip` whitespace. -/
def isWsC (c : Char) : Bool :=
  c = ' ' ∨ c = '\t' ∨ c = '\n' ∨ c = '\r' ∨ c = '\x0b' ∨ c = '\x0c'

/-- Numeric value of a digit-character run. -/
def digitsVal (ds : List Char) : Nat :=
  ds.foldl (fun a c => a * 10 + (c.toNat - 48)) 0

/-- A JSON-like Python value (dicts keep insertion order, keys unique). -/
inductive JVal where
  | jnull
  | jbool (b : Bool)
  | jnum (n : Int)
  | jstr (s : String)
  | jarr (xs : List JVal)
  | jobj (fields : List (String × JVal))
deriving Repr

namespace JVal

/-- First binding of a key in a dict's field list (Python dict lookup). -/
def lookupField : List (String × JVal) → String → Option JVal
  | [], _ => none
  | (k, v) :: rest, key => if k = key then some v else lookupField rest key

/-- Python truthiness of a value. -/
def truthy : JVal → Bool
  | .jnull => false
  | .jbool b => b
  | .jnum n => n ≠ 0
  | .jstr s => !s.isEmpty
  | .jarr xs => !xs.isEmpty
  | .jobj fs => !fs.isEmpty

/-- `a or b` in Python: `a` when truthy, else `b`. -/
def pyOr (a b : JVal) : JVal := if truthy a then a else b

/-- `d.get(key)` on a known dict's field list: the value, or `None`. -/
def jfD (fs : List (String × JVal)) (key : String) : JVal :=
  (lookupField fs key).getD .jnull

/-- `d.get(key, default)` on a known dict's field list. -/
def jfDd (fs : List (String × JVal)) (key : String) (dflt : JVal) : JVal :=
  (lookupField fs key).getD dflt

/-- Whether `s` occurs as a contiguous substring of `hay` (Python `in` on str). -/
def strContainsSub (hay needle : String) : Bool :=
  let rec go : List Char → Bool
    | [] => needle.data.isPrefixOf []
    | c :: rest => needle.data.isPrefixOf (c :: rest) || go rest
  go hay.data

/-- Python `key in container` for a string key; `none` models a `TypeError`. -/
def pyContains (container : JVal) (key : String) : Option Bool :=
  match container with
  | .jobj fs => some (fs.any (fun p => p.1 == key))
  | .jarr xs => some (xs.any (fun v => match v with | .jstr s => s == key | _ => false))
  | .jstr s => some (strContainsSub s key)
  | _ => none

/-- Python `container[key]` for a string key; `none` models a raised
`TypeError`/`KeyError` (subscripting a non-dict, or key absent). -/
def jIndex (container : JVal) (key : String) : Option JVal :=
  match container with
  | .jobj fs => lookupField fs key
  | _ => none

/-- Python `for x in v`: list elements, string characters, dict keys;
`none` models the `TypeError` raised for non-iterable values. -/
def pyIter : JVal → Option (List JVal)
  | .jarr xs => some xs
  | .jstr s => some (s.data.map (fun c => JVal.jstr (String.singleton c)))
  | .jobj fs => some (fs.map (fun p => JVal.jstr p.1))
  | _ => none

/-- The single-quote character used by Python `repr` of strings. -/
def sq : String := String.singleton (Char.ofNat 39)

mutual
/-- Python `repr` of a JSON-like value (as it appears inside containers). -/
def pyRepr : JVal → String
  | .jnull => "None"
  | .jbool b => if b then "True" else "False"
  | .jnum n => toString n
  | .jstr s => sq ++ s ++ sq
  | .jarr xs => "[" ++ String.intercalate ", " (pyReprList xs) ++ "]"
  | .jobj fs => "\x7b" ++ String.intercalate ", " (pyReprFields fs) ++ "\x7d"

/-- `repr` of each element of a list. -/
def pyReprList : List JVal → List String
  | [] => []
  | x :: rest => pyRepr x :: pyReprList rest

/-- `repr` of each `key: value` binding of a dict. -/
def pyReprFields : List (String × JVal) → List String
  | [] => []
  | (k, v) :: rest => (sq ++ k ++ sq ++ ": " ++ pyRepr v) :: pyReprFields rest
end

/-- Python `str(v)`: strings render without quotes, other values as `repr`. -/
def pyStrTop : JVal → String
  | .jstr s => s
  | v => pyRepr v

/-- Python `int(v)`: ints, bools, and numeric strings (with surrounding
whitespace and an optional sign); `none` models the `TypeError`/`ValueError`
raised otherwise. -/
def pyInt : JVal → Option Int
  | .jnum n => some n
  | .jbool b => some (if b then 1 else 0)
  | .jstr s =>
      match ((s.data.dropWhile isWsC).reverse.dropWhile isWsC).reverse with
      | [] => none
      | '-' :: ds => if !ds.isEmpty && ds.all Char.isDigit then some (-(digitsVal ds : Int)) else none
      | ds => if ds.all Char.isDigit then some ((digitsVal ds : Int)) else none
  | _ => none

/-- `v` as a Python number for `==` comparisons: ints and bools compare
equal to ints (`True == 1`). -/
def asNum : JVal → Option Int
  | .jnum n => some n
  | .jbool b => some (if b then 1 else 0)
  | _ => none

end JVal

/-! ## Calendar dates (`datetime.datetime`, date component only) -/

/-- A calendar date as year/month/day. -/
structure PyDate where
  year : Nat
  month : Nat
  day : Nat
deriving DecidableEq, Repr

/-- Gregorian leap-year rule. -/
def isLeap (y : Nat) : Bool := (y % 4 == 0 && y % 100 != 0) || y % 400 == 0

/-- Number of days of month `m` of year `y`. -/
def daysInMonth (y m : Nat) : Nat :=
  if m = 2 then (if isLeap y then 29 else 28)
  else if m = 4 ∨ m = 6 ∨ m = 9 ∨ m = 11 then 30
  else 31

/-- `datetime.datetime(y, m, d)`: `none` models the `ValueError`/`TypeError`
raised for out-of-range components (year must be 1..9999). -/
def mkDatetime (y m d : Int) : Option PyDate :=
  if 1 ≤ y ∧ y ≤ 9999 ∧ 1 ≤ m ∧ m ≤ 12 ∧ 1 ≤ d ∧ d ≤ (daysInMonth y.toNat m.toNat : Int)
  then some ⟨y.toNat, m.toNat, d.toNat⟩
  else none

/-- The date one day later (`+ timedelta(days=1)`). -/
def nextDay (p : PyDate) : PyDate :=
  if p.day < daysInMonth p.year p.month then ⟨p.year, p.month, p.day + 1⟩
  else if p.month < 12 then ⟨p.year, p.month + 1, 1⟩
  else ⟨p.year + 1, 1, 1⟩

/-- The date `k` days later (`+ timedelta(days=k)`). -/
def addDays (p : PyDate) (k : Nat) : PyDate := Nat.rec p (fun _ q => nextDay q) k

/-- Date comparison `a ≤ b` in calendar order. -/
def dateLeB (a b : PyDate) : Bool :=
  a.year < b.year ||
  (a.year == b.year && (a.month < b.month ||
    (a.month == b.month && a.day ≤ b.day)))

/-- A year/month/day triple that `datetime` accepts. -/
def validDate (p : PyDate) : Prop :=
  1 ≤ p.year ∧ 1 ≤ p.month ∧ p.month ≤ 12 ∧ 1 ≤ p.day ∧ p.day ≤ daysInMonth p.year p.month

instance : DecidablePred validDate := fun p => by unfold validDate; infer_instance

/-- Left-pad the decimal rendering of `n` with zeros to width `w`. -/
def padNum (w : Nat) (n : Nat) : String :=
  let s := toString n
  String.mk (List.replicate (w - s.length) '0') ++ s

/-- `strftime('%Y%m%d')`. -/
def yyyymmdd (p : PyDate) : String :=
  padNum 4 p.year ++ padNum 2 p.month ++ padNum 2 p.day

/-! ## Model of the external `dateutil.parser.parse` date parser

The repository delegates date-string parsing to the third-party `dateutil`
library (an external collaborator per the spec).  `dateutil_parse` models it
for exactly the date-string shapes this repository constructs: ISO
`YYYY-MM-DD`, numeric `M/D/Y`, and `Month D, Y` with an optional weekday
prefix; with `fuzzy := true` unrecognized words are skipped, without it they
make the parse fail. -/

/-- A token of a date string: a digit run (with its digit count) or a word. -/
inductive DTok where
  | num (digits : Nat) (val : Nat)
  | word (w : String)
deriving DecidableEq, Repr

mutual
/-- Split a character list into digit-run and word tokens, lowercasing words
and skipping separator characters. -/
def dtokenize : List Char → List DTok
  | [] => []
  | c :: rest =>
    if c.isAlpha then dtokWordGo [c] rest
    else if c.isDigit then dtokNumGo [c] rest
    else dtokenize rest

/-- Continue a word token. -/
def dtokWordGo (acc : List Char) : List Char → List DTok
  | [] => [.word (String.mk (acc.reverse.map Char.toLower))]
  | c :: rest =>
    if c.isAlpha then dtokWordGo (c :: acc) rest
    else if c.isDigit then
      .word (String.mk (acc.reverse.map Char.toLower)) :: dtokNumGo [c] rest
    else .word (String.mk (acc.reverse.map Char.toLower)) :: dtokenize rest

/-- Continue a digit-run token. -/
def dtokNumGo (acc : List Char) : List Char → List DTok
  | [] => [.num acc.length (digitsVal acc.reverse)]
  | c :: rest =>
    if c.isDigit then dtokNumGo (c :: acc) rest
    else if c.isAlpha then
      .num acc.length (digitsVal acc.reverse) :: dtokWordGo [c] rest
    else .num acc.length (digitsVal acc.reverse) :: dtokenize rest
end

/-- English month names and abbreviations with their month numbers. -/
def monthNames : List (String × Nat) :=
  [("january", 1), ("february", 2), ("march", 3), ("april", 4), ("may", 5),
   ("june", 6), ("july", 7), ("august", 8), ("september", 9), ("october", 10),
   ("november", 11), ("december", 12),
   ("jan", 1), ("feb", 2), ("mar", 3), ("apr", 4), ("jun", 6), ("jul", 7),
   ("aug", 8), ("sep", 9), ("sept", 9), ("oct", 10), ("nov", 11), ("dec", 12)]

/-- English weekday names and abbreviations. -/
def weekdayNames : List String :=
  ["monday", "tuesday", "wednesday", "thursday", "friday", "saturday", "sunday",
   "mon", "tue", "tues", "wed", "thu", "thur", "thurs", "fri", "sat", "sun"]

/-- Month number of a (lowercased) month-name word, if any. -/
def monthName? (w : String) : Option Nat :=
  (monthNames.find? (fun p => p.1 == w)).map (fun p => p.2)

/-- A two-digit year expanded to a full year (below 50 means the 2000s). -/
def expandYear (digits y : Nat) : Int :=
  if 3 ≤ digits then (y : Int) else if y < 50 then (2000 + y : Nat) else (1900 + y : Nat)

/-- Model of `dateutil.parser.parse` (see the section comment). -/
def dateutil_parse (fuzzy : Bool) (s : String) : Option PyDate :=
  let ts := (dtokenize s.data).filter
    (fun t => match t with | .word w => !weekdayNames.contains w | _ => true)
  let words := ts.filterMap (fun t => match t with | .word w => some w | _ => none)
  let nums := ts.filterMap (fun t => match t with | .num dg v => some (dg, v) | _ => none)
  if !fuzzy && words.any (fun w => (monthName? w).isNone) then none
  else
    match words.filterMap monthName?, nums with
    | [m], [(dg1, a), (dg2, b)] =>
        if dg2 = 4 ∧ dg1 ≤ 2 then mkDatetime (b : Int) (m : Int) (a : Int)
        else if dg1 = 4 ∧ dg2 ≤ 2 then mkDatetime (a : Int) (m : Int) (b : Int)
        else none
    | [], [(dg1, a), (dg2, b), (dg3, c)] =>
        if dg1 = 4 then mkDatetime (a : Int) (b : Int) (c : Int)
        else if dg2 ≤ 2 ∧ dg1 ≤ 2 then mkDatetime (expandYear dg3 c.toNat) (a : Int) (b : Int)
        else none
    | _, _ => none

/-! ## The free-text date scan of `fetch_menu_pdf.py`

`_extract_date_from_line` tries five regular expressions in order and hands
the matched text (with the year appended when absent) to the fuzzy date
parser; `_remove_date_from_line` applies three anchored prefix
substitutions.  The individual patterns are modelled character-exactly
(leftmost search, greedy quantifiers with the backtracking each pattern
actually admits). -/

/-- Python `text.split('\n')` (`acc` holds the current line reversed). -/
def splitLinesGo (acc : List Char) : List Char → List String
  | [] => [String.mk acc.reverse]
  | c :: rest =>
    if c = '\n' then String.mk acc.reverse :: splitLinesGo [] rest
    else splitLinesGo (c :: acc) rest

/-- Python `text.split('\n')`. -/
def pySplitNl (s : String) : List String := splitLinesGo [] s.data

/-- Python `str.strip()`. -/
def pyStrip (s : String) : String :=
  String.mk (((s.data.dropWhile isWsC).reverse.dropWhile isWsC).reverse)

/-- Whether a letter run ends in `day` (case-insensitively). -/
def endsWithDay (a : List Char) : Bool :=
  match (a.map Char.toLower).reverse with
  | 'y' :: 'a' :: 'd' :: _ => true
  | _ => false

/-- Anchored match of `([A-Za-z]+day),?\s+([A-Za-z]+)\s+(\d{1,2})`;
returns the matched text. -/
def matchPat1 (cs : List Char) : Option (List Char) :=
  let a := cs.takeWhile Char.isAlpha
  if 4 ≤ a.length ∧ endsWithDay a then
    let r1 := cs.drop a.length
    let (cm, r2) : List Char × List Char :=
      match r1 with
      | ',' :: t => ([','], t)
      | _ => ([], r1)
    let w := r2.takeWhile isWsC
    if w.isEmpty then none else
    let r3 := r2.drop w.length
    let b := r3.takeWhile Char.isAlpha
    if b.isEmpty then none else
    let r4 := r3.drop b.length
    let w2 := r4.takeWhile isWsC
    if w2.isEmpty then none else
    let r5 := r4.drop w2.length
    let dg := (r5.takeWhile Char.isDigit).take 2
    if dg.isEmpty then none else
    some (a ++ cm ++ w ++ b ++ w2 ++ dg)
  else none

/-- The `,?\s+(\d{4})` tail of the month-day-year pattern. -/
def pat2Tail (rest : List Char) : Option (List Char) :=
  let (cm, r) : List Char × List Char :=
    match rest with
    | ',' :: t => ([','], t)
    | _ => ([], rest)
  let w := r.takeWhile isWsC
  if w.isEmpty then none else
  let r2 := r.drop w.length
  let run := r2.takeWhile Char.isDigit
  if 4 ≤ run.length then some (cm ++ w ++ run.take 4) else none

/-- Anchored match of `([A-Za-z]+)\s+(\d{1,2}),?\s+(\d{4})`. -/
def matchPat2 (cs : List Char) : Option (List Char) :=
  let a := cs.takeWhile Char.isAlpha
  if a.isEmpty then none else
  let r1 := cs.drop a.length
  let w := r1.takeWhile isWsC
  if w.isEmpty then none else
  let r2 := r1.drop w.length
  let run := r2.takeWhile Char.isDigit
  if run.isEmpty then none else
  let try2 : Option (List Char) :=
    if 2 ≤ run.length then (pat2Tail (r2.drop 2)).map (fun t => a ++ w ++ run.take 2 ++ t)
    else none
  match try2 with
  | some m => some m
  | none => (pat2Tail (r2.drop 1)).map (fun t => a ++ w ++ run.take 1 ++ t)

/-- Anchored match of `(\d{1,2})<sep>(\d{1,2})<sep>(\d{2,4})` for a fixed
separator (`/` or `-`). -/
def matchPatNum (sep : Char) (cs : List Char) : Option (List Char) :=
  let d1 := cs.takeWhile Char.isDigit
  if d1.isEmpty ∨ 3 ≤ d1.length then none else
  match cs.drop d1.length with
  | s1 :: r1 =>
    if s1 = sep then
      let d2 := r1.takeWhile Char.isDigit
      if d2.isEmpty ∨ 3 ≤ d2.length then none else
      match r1.drop d2.length with
      | s2 :: r2 =>
        if s2 = sep then
          let d3 := r2.takeWhile Char.isDigit
          if d3.length < 2 then none
          else some (d1 ++ [s1] ++ d2 ++ [s2] ++ d3.take 4)
        else none
      | [] => none
    else none
  | [] => none

/-- Anchored match of `([A-Za-z]+)\s+(\d{1,2})`. -/
def matchPat5 (cs : List Char) : Option (List Char) :=
  let a := cs.takeWhile Char.isAlpha
  if a.isEmpty then none else
  let r1 := cs.drop a.length
  let w := r1.takeWhile isWsC
  if w.isEmpty then none else
  let r2 := r1.drop w.length
  let dg := (r2.takeWhile Char.isDigit).take 2
  if dg.isEmpty then none else
  some (a ++ w ++ dg)

/-- `re.search`: try the anchored matcher at each position, leftmost first. -/
def reSearch (m : List Char → Option (List Char)) : List Char → Option (List Char)
  | [] => m []
  | c :: rest =>
    match m (c :: rest) with
    | some r => some r
    | none => reSearch m rest

/-- `str(year) in date_str` / year-appending step of `_extract_date_from_line`. -/
def appendYearIfMissing (year : Nat) (ds : String) : String :=
  if !JVal.strContainsSub ds (toString year) && JVal.strContainsSub ds "/" then
    ds ++ "/" ++ toString year
  else if !JVal.strContainsSub ds (toString year) then
    ds ++ ", " ++ toString year
  else ds

/-- One iteration of the pattern loop of `_extract_date_from_line`: search the
pattern, append the year when missing, and hand the text to the fuzzy date
parser; any failure moves on to the next pattern. -/
def tryPat (m : List Char → Option (List Char)) (year : Nat) (line : String) : Option PyDate :=
  match reSearch m line.data with
  | none => none
  | some g0 => dateutil_parse true (appendYearIfMissing year (String.mk g0))

/-- `PDFMenuParser._extract_date_from_line`: the five date patterns tried in
order; the first that matches and parses wins. -/
def _extract_date_from_line (line : String) (year : Nat) : Option PyDate :=
  match tryPat matchPat1 year line with
  | some d => some d
  | none =>
  match tryPat matchPat2 year line with
  | some d => some d
  | none =>
  match tryPat (matchPatNum '/') year line with
  | some d => some d
  | none =>
  match tryPat (matchPatNum '-') year line with
  | some d => some d
  | none => tryPat matchPat5 year line

/-- Anchored substitution `^[A-Za-z]+day,?\s+` → empty (weekday prefix). -/
def sub1weekday (cs : List Char) : List Char :=
  let a := cs.takeWhile Char.isAlpha
  if 4 ≤ a.length ∧ endsWithDay a then
    let r1 := cs.drop a.length
    let r2 : List Char :=
      match r1 with
      | ',' :: t => t
      | _ => r1
    let w := r2.takeWhile isWsC
    if w.isEmpty then cs else r2.drop w.length
  else cs

/-- Anchored substitution `^[A-Za-z]+\s+\d{1,2},?\s*` → empty (month-day
prefix; note the optional year is NOT part of this pattern). -/
def sub2monthday (cs : List Char) : List Char :=
  let a := cs.takeWhile Char.isAlpha
  if a.isEmpty then cs else
  let r1 := cs.drop a.length
  let w := r1.takeWhile isWsC
  if w.isEmpty then cs else
  let r2 := r1.drop w.length
  let run := r2.takeWhile Char.isDigit
  if run.isEmpty then cs else
  let r3 := r2.drop (min 2 run.length)
  let r4 : List Char :=
    match r3 with
    | ',' :: t => t
    | _ => r3
  r4.dropWhile isWsC

/-- Anchored substitution `^\d{1,2}[slash-or-dash]\d{1,2}[slash-or-dash]\d{2,4}\s*` → empty. -/
def sub3numeric (cs : List Char) : List Char :=
  let d1 := cs.takeWhile Char.isDigit
  if d1.isEmpty ∨ 3 ≤ d1.length then cs else
  match cs.drop d1.length with
  | s1 :: r1 =>
    if s1 = '/' ∨ s1 = '-' then
      let d2 := r1.takeWhile Char.isDigit
      if d2.isEmpty ∨ 3 ≤ d2.length then cs else
      match r1.drop d2.length with
      | s2 :: r2 =>
        if s2 = '/' ∨ s2 = '-' then
          let d3 := r2.takeWhile Char.isDigit
          if d3.length < 2 then cs
          else (r2.drop (min 4 d3.length)).dropWhile isWsC
        else cs
      | [] => cs
    else cs
  | [] => cs

/-- `PDFMenuParser._remove_date_from_line`: the three anchored substitutions
in order, then `strip()`. -/
def _remove_date_from_line (line : String) : String :=
  pyStrip (String.mk (sub3numeric (sub2monthday (sub1weekday line.data))))

/-! ## Canonical events and the free-text scan -/

/-- The normalized event record all parsers produce
(`{'date': ..., 'title': ..., 'description': ...}`). -/
structure Event where
  date : PyDate
  title : String
  description : String
deriving DecidableEq, Repr

namespace PdfMenu

/-- Flush the scanner state: one event when a date with at least one
accumulated menu line is active (`if current_date and current_menu`). -/
def flushCur (cur : Option (PyDate × List String)) : List Event :=
  match cur with
  | some (d, menu) =>
      if menu.isEmpty then []
      else [⟨d, "School Lunch", String.intercalate "\n" menu⟩]
  | none => []

/-- The initial menu-line list of a freshly started date: the line's residue
after date removal, when non-empty. -/
def initContent (s : String) : List String :=
  let r := _remove_date_from_line s
  if r.isEmpty then [] else [r]

/-- The line loop of `PDFMenuParser.parse_menu_text`, with the mutable
`current_date`/`current_menu`/`events` state made explicit. -/
def scanLoop (year : Nat) :
    Option (PyDate × List String) → List Event → List String → List Event
  | cur, acc, [] => acc ++ flushCur cur
  | cur, acc, l :: rest =>
    let s := pyStrip l
    if s.isEmpty then scanLoop year cur acc rest
    else
      match _extract_date_from_line s year with
      | some d => scanLoop year (some (d, initContent s)) (acc ++ flushCur cur) rest
      | none =>
        match cur with
        | some (d0, menu) => scanLoop year (some (d0, menu ++ [s])) acc rest
        | none => scanLoop year none acc rest

/-- `PDFMenuParser.parse_menu_text` (the `year` argument is the caller's
year context, defaulted in the source to the current year). -/
def parse_menu_text (year : Nat) (text : String) : List Event :=
  scanLoop year none [] (pySplitNl text)

/-- Specification-style scan, active-date phase: written as a direct
recursion that emits each flushed day entry in place. -/
def scanActive (year : Nat) (d : PyDate) (menu : List String) :
    List String → List Event
  | [] => flushCur (some (d, menu))
  | l :: rest =>
    let s := pyStrip l
    if s.isEmpty then scanActive year d menu rest
    else
      match _extract_date_from_line s year with
      | some d2 => flushCur (some (d, menu)) ++ scanActive year d2 (initContent s) rest
      | none => scanActive year d (menu ++ [s]) rest

/-- Specification-style scan, before any date has been seen: non-date lines
are discarded. -/
def scanFromStart (year : Nat) : List String → List Event
  | [] => []
  | l :: rest =>
    let s := pyStrip l
    if s.isEmpty then scanFromStart year rest
    else
      match _extract_date_from_line s year with
      | some d => scanActive year d (initContent s) rest
      | none => scanFromStart year rest

end PdfMenu

/-! ## `fetch_from_json.py` -/

/-- Tag-stripping model of the external `BeautifulSoup(...).get_text(strip=True)`
used by the `html` fallback of `extract_menu_items` (no claim depends on its
exact text). -/
def stripTagsGo : Bool → List Char → List Char
  | _, [] => []
  | true, c :: rest => if c = '>' then stripTagsGo false rest else stripTagsGo true rest
  | false, c :: rest => if c = '<' then stripTagsGo true rest else c :: stripTagsGo false rest

/-- `BeautifulSoup(html).get_text(strip=True)` model. -/
def soupGetText (s : String) : String := pyStrip (String.mk (stripTagsGo false s.data))

namespace FromJson
open JVal

/-- The five keys probed in order by `extract_menu_items`. -/
def possible_keys : List String := ["menu_items", "items", "recipes", "menuItems", "recipeItems"]

/-- The `if key in day_entry and day_entry[key]:` probe over the preference
keys: the first populated key's value.  `none` models a raised error,
`some none` means no key was populated. -/
def firstPopulated (day_entry : JVal) : List String → Option (Option JVal)
  | [] => some none
  | k :: rest =>
    match pyContains day_entry k with
    | none => none
    | some true =>
      match jIndex day_entry k with
      | none => none
      | some v => if truthy v then some (some v) else firstPopulated day_entry rest
    | some false => firstPopulated day_entry rest

/-- One `items.append(...)` step of the item loop: dict items go through the
`name or recipeName or text or label or str(item)` chain guarded by
`if name:`; non-dict items are appended as `str(item)` unconditionally. -/
def renderStep (item : JVal) : Option String :=
  match item with
  | .jobj fs =>
    let nm := pyOr (jfD fs "name") (pyOr (jfD fs "recipeName") (pyOr (jfD fs "text")
      (pyOr (jfD fs "label") (.jstr (pyStrTop (JVal.jobj fs))))))
    if truthy nm then some (pyStrTop nm) else none
  | v => some (pyStrTop v)

/-- `extract_menu_items(day_entry)`; `none` models an exception escaping to
the per-day handler of `parse_menu_to_events`. -/
def extract_menu_items (day_entry : JVal) : Option (List String) :=
  match firstPopulated day_entry possible_keys with
  | none => none
  | some (some v) =>
    match pyIter v with
    | none => none
    | some its => some (its.filterMap renderStep)
  | some none =>
    match pyContains day_entry "html" with
    | none => none
    | some false => some []
    | some true =>
      match jIndex day_entry "html" with
      | some (.jstr h) =>
        let t := soupGetText h
        some (if t.isEmpty then [] else [t])
      | _ => none

/-- The date resolution of one day entry: `day_entry.get('day') or
day_entry.get('dayNum')`, the `if not day_num: continue` truthiness check,
`int(day_num)`, then `datetime(year, month, ...)`; `none` covers every skip
and caught-exception path. -/
def jsonDayDate (year : JVal) (month : Int) (day_entry : JVal) : Option PyDate :=
  match day_entry with
  | .jobj fs =>
    let dayv := pyOr (jfD fs "day") (jfD fs "dayNum")
    if truthy dayv then
      match pyInt dayv, asNum year with
      | some dn, some y => mkDatetime y month dn
      | _, _ => none
    else none
  | _ => none

/-- The body of the per-day `try`: date resolution, item extraction, and the
`if menu_items:` guard (empty days produce no event). -/
def processDay (year : JVal) (month : Int) (day_entry : JVal) : Option Event :=
  match jsonDayDate year month day_entry with
  | none => none
  | some dt =>
    match extract_menu_items day_entry with
    | none => none
    | some menu_items =>
      if menu_items.isEmpty then none
      else some ⟨dt, "School Lunch", String.intercalate "\n" menu_items⟩

/-- The day loop of `parse_menu_to_events`: failing entries are skipped. -/
def parseDaysJson (year : JVal) (month : Int) (entries : List JVal) : List Event :=
  entries.filterMap (processDay year month)

/-- `menu.get('month', 0) + 1`; `none` models the `TypeError` raised when
the month value is not a number, or when `menu` is not a dict. -/
def monthPlus1 (menu : JVal) : Option Int :=
  match menu with
  | .jobj fs =>
    match asNum (jfDd fs "month" (.jnum 0)) with
    | some n => some (n + 1)
    | none => none
  | _ => none

/-- `parse_menu_to_events(menu)`; `none` models an uncaught exception
(the year/month reads sit outside the per-day `try`). -/
def parse_menu_to_events (menu : JVal) : Option (List Event) :=
  match pyContains menu "days" with
  | none => none
  | some false =>
    match menu with
    | .jobj _ => (monthPlus1 menu).map (fun _ => ([] : List Event))
    | _ => none
  | some true =>
    match jIndex menu "days" with
    | none => none
    | some days =>
      if truthy days = false then
        match menu with
        | .jobj _ => (monthPlus1 menu).map (fun _ => ([] : List Event))
        | _ => none
      else
        match monthPlus1 menu with
        | none => none
        | some month =>
          match menu with
          | .jobj fs =>
            match pyIter days with
            | none => none
            | some entries => some (parseDaysJson (jfD fs "year") month entries)
          | _ => none

/-- One iteration of the menu loop of `main`: parse the menu, then build the
per-month log line whose `datetime(year, month, 1)` can itself raise. -/
def menuStep (menu : JVal) : Option (List Event) :=
  match parse_menu_to_events menu with
  | none => none
  | some evs =>
    match menu with
    | .jobj fs =>
      match monthPlus1 menu with
      | none => none
      | some month =>
        match asNum (jfD fs "year") with
        | some y =>
          match mkDatetime y month 1 with
          | some _ => some evs
          | none => none
        | none => none
    | _ => none

/-- The `all_events` accumulation loop of `main` (`all_events.extend(events)`
per menu, in processing order). -/
def mainLoop : List Event → List JVal → Option (List Event)
  | acc, [] => some acc
  | acc, menu :: rest =>
    match menuStep menu with
    | none => none
    | some evs => mainLoop (acc ++ evs) rest

/-- The final event list `main` hands to `generate_ics`. -/
def mainCollect (menus : List JVal) : Option (List Event) :=
  mainLoop [] menus

/-- The `(date.year, date.month - 1)` pairs for `now + 32*i days`,
`i = 0 .. months_ahead` — the target list of
`get_current_and_upcoming_menus` (the vendor API 0-indexes months). -/
def target_months (now : PyDate) (months_ahead : Nat) : List (Int × Int) :=
  (List.range (months_ahead + 1)).map (fun i =>
    let d := addDays now (32 * i)
    ((d.year : Int), (d.month : Int) - 1))

/-- Python `(year, month) in target_months` tuple membership (bools compare
as ints, non-numbers never equal an int pair). -/
def ymIn (yv mv : JVal) (tms : List (Int × Int)) : Bool :=
  match asNum yv, asNum mv with
  | some y, some m => tms.contains (y, m)
  | _, _ => false

/-- The filter loop of `get_current_and_upcoming_menus`; the log line of an
included menu constructs `datetime(year, month + 1, 1)`, which can raise. -/
def gcuLoop (tms : List (Int × Int)) : List JVal → Option (List JVal)
  | [] => some []
  | menu :: rest =>
    match menu with
    | .jobj fs =>
      let yv := jfD fs "year"
      let mv := jfD fs "month"
      if ymIn yv mv tms then
        match asNum yv, asNum mv with
        | some y, some m =>
          match mkDatetime y (m + 1) 1 with
          | some _ => (gcuLoop tms rest).map (fun r => menu :: r)
          | none => none
        | _, _ => none
      else gcuLoop tms rest
    | _ => none

/-- `get_current_and_upcoming_menus(menu_data, months_ahead)` with the run
timestamp `datetime.now()` made an explicit `now` argument. -/
def get_current_and_upcoming_menus (menu_data : JVal) (months_ahead : Nat) (now : PyDate) :
    Option (List JVal) :=
  match pyContains menu_data "menus" with
  | none => none
  | some false => some []
  | some true =>
    match jIndex menu_data "menus" with
    | none => none
    | some ml =>
      match pyIter ml with
      | none => none
      | some ms => gcuLoop (target_months now months_ahead) ms

end FromJson

/-! ## Calendar documents (`icalendar.Calendar` / `Event`) -/

/-- One VEVENT block as assembled by the `generate_ics` functions. -/
structure VEvent where
  summary : String
  description : String
  dtstart : PyDate
  dtend : PyDate
  uid : String
  dtstamp : PyDate
deriving DecidableEq, Repr

/-- A calendar document: the document-level metadata plus its event blocks. -/
structure ICal where
  prodid : String
  version : String
  calname : String
  caldesc : String
  components : List VEvent
deriving DecidableEq, Repr

/-- The fixed uid suffix `-lunch@automated-tasks`. -/
def uidSuffix : String := "-lunch@automated-tasks"

namespace FromJson

/-- One event block of `fetch_from_json.generate_ics`: summary/description
from the event, `dtstart = date`, `dtend = date + 1 day`, uid
`<YYYYMMDD>-lunch@automated-tasks`, dtstamp from the generation clock. -/
def eventBlock (now : PyDate) (e : Event) : VEvent :=
  { summary := e.title
    description := e.description
    dtstart := e.date
    dtend := nextDay e.date
    uid := yyyymmdd e.date ++ uidSuffix
    dtstamp := now }

/-- `fetch_from_json.generate_ics` (document assembly; the file write is the
caller's effect). -/
def generate_ics (events : List Event) (calendar_name : String) (now : PyDate) : ICal :=
  { prodid := "-//School Lunch Menu//EN"
    version := "2.0"
    calname := calendar_name
    caldesc := "Automated school lunch menu calendar"
    components := events.map (eventBlock now) }

end FromJson

/-! ## `fetch_menu.py` (`MenuParser`) -/

namespace FetchMenu
open JVal

/-- `MenuParser._parse_date`: strings go to `dateutil.parser.parse` (not
fuzzy); any other JSON value raises (`none`). -/
def _parse_date (v : JVal) : Option PyDate :=
  match v with
  | .jstr s => dateutil_parse false s
  | _ => none

/-- `'\n'.join(str(item) for item in items if item)`. -/
def joinStrTruthy (items : List JVal) : String :=
  String.intercalate "\n" ((items.filter truthy).map pyStrTop)

/-- One iteration of `_parse_days_format`'s loop: `.ok none` is a skipped
day, `.error ()` an uncaught exception that aborts the whole parse. -/
def daysStep (day : JVal) : Except Unit (Option Event) :=
  match day with
  | .jobj fs =>
    let date := jfD fs "date"
    let items := pyOr (jfDd fs "items" (.jarr [])) (jfDd fs "meals" (.jarr []))
    if truthy date && truthy items then
      match pyIter items with
      | none => .error ()
      | some xs =>
        match _parse_date date with
        | none => .error ()
        | some dt => .ok (some ⟨dt, "School Lunch", joinStrTruthy xs⟩)
    else .ok none
  | _ => .ok none

/-- The loop of `_parse_days_format` over the day records. -/
def daysGo : List JVal → Option (List Event)
  | [] => some []
  | d :: rest =>
    match daysStep d with
    | .error _ => none
    | .ok none => daysGo rest
    | .ok (some e) => (daysGo rest).map (fun l => e :: l)

/-- `MenuParser._parse_days_format(data['days'])`; iterating a non-iterable
value raises. -/
def _parse_days_format (v : JVal) : Option (List Event) :=
  match pyIter v with
  | none => none
  | some days => daysGo days

/-- One `date_str -> items` entry of `_parse_dates_format`; its whole body
sits in a `try` catching `ValueError`/`TypeError`, so an unparseable key
just skips the entry (`none`). -/
def datesStep (date_str : String) (items : JVal) : Option Event :=
  match dateutil_parse false date_str with
  | none => none
  | some dt =>
    let description :=
      match items with
      | .jarr xs => joinStrTruthy xs
      | v => pyStrTop v
    some ⟨dt, "School Lunch", description⟩

/-- `MenuParser._parse_dates_format(data['dates'])`; `.items()` on a
non-dict raises. -/
def _parse_dates_format (v : JVal) : Option (List Event) :=
  match v with
  | .jobj fs => some (fs.filterMap (fun p => datesStep p.1 p.2))
  | _ => none

/-- One iteration of `_parse_items_format`'s loop (no `try`: an unparseable
date aborts the whole parse). -/
def itemsStep (item : JVal) : Except Unit (Option Event) :=
  match item with
  | .jobj fs =>
    let date := pyOr (jfD fs "date") (jfD fs "day")
    let menu := pyOr (jfD fs "menu") (pyOr (jfD fs "items") (jfD fs "description"))
    if truthy date && truthy menu then
      match _parse_date date with
      | none => .error ()
      | some dt => .ok (some ⟨dt, "School Lunch", pyStrTop menu⟩)
    else .ok none
  | _ => .ok none

/-- The loop of `_parse_items_format` over the item records. -/
def itemsGo : List JVal → Option (List Event)
  | [] => some []
  | d :: rest =>
    match itemsStep d with
    | .error _ => none
    | .ok none => itemsGo rest
    | .ok (some e) => (itemsGo rest).map (fun l => e :: l)

/-- `MenuParser._parse_items_format(data['items'])`. -/
def _parse_items_format (v : JVal) : Option (List Event) :=
  match pyIter v with
  | none => none
  | some items => itemsGo items

mutual
/-- `MenuParser.parse_menu`: shape dispatch on the top-level keys, with
recursion into a nested `menu` key; `none` models an uncaught exception. -/
def parse_menu : JVal → Option (List Event)
  | .jobj fs =>
    match JVal.lookupField fs "days" with
    | some days => _parse_days_format days
    | none =>
      match JVal.lookupField fs "dates" with
      | some ds => _parse_dates_format ds
      | none =>
        match JVal.lookupField fs "items" with
        | some its => _parse_items_format its
        | none => parseMenuKey fs
  | _ => some []

/-- The `elif 'menu' in data: ... parse_menu(data['menu'])` step, with the
dict lookup of the `menu` key fused into the recursion (first binding wins,
as in a Python dict). -/
def parseMenuKey : List (String × JVal) → Option (List Event)
  | [] => some []
  | (k, v) :: rest => if k = "menu" then parse_menu v else parseMenuKey rest
end

/-- The run-level outcome of `fetch_menu.main` after parsing: exit code 1
when no events were found, otherwise the events (`none` = crash). -/
def mainResult (data : JVal) : Option (Sum Nat (List Event)) :=
  (parse_menu data).map (fun evs => if evs.isEmpty then Sum.inl 1 else Sum.inr evs)

end FetchMenu

/-- The Schema Resolver's `Unrecognized` classification from the spec: a
payload that is not a dict, or a dict with none of the recognized top-level
keys `days`/`dates`/`items`/`menu`. -/
def unrecognizedShape (v : JVal) : Bool :=
  match v with
  | .jobj fs =>
    (JVal.lookupField fs "days").isNone && (JVal.lookupField fs "dates").isNone &&
    (JVal.lookupField fs "items").isNone && (JVal.lookupField fs "menu").isNone
  | _ => true

/-! ## `fetch_menu_simple.py`: `generate_ics` and the zero-event run -/

namespace SimpleFetch
open JVal

/-- One event block of `fetch_menu_simple.generate_ics`. -/
def eventBlock (now : PyDate) (e : Event) : VEvent :=
  { summary := e.title
    description := e.description
    dtstart := e.date
    dtend := nextDay e.date
    uid := yyyymmdd e.date ++ uidSuffix
    dtstamp := now }

/-- `fetch_menu_simple.generate_ics` document assembly. -/
def generate_ics (events : List Event) (calendar_name : String) (now : PyDate) : ICal :=
  { prodid := "-//School Lunch Menu//EN"
    version := "2.0"
    calname := calendar_name
    caldesc := "Automated school lunch menu calendar"
    components := events.map (eventBlock now) }

/-- Serialization model of `icalendar`: the content lines of one VEVENT. -/
def renderEventLines (v : VEvent) : List String :=
  ["BEGIN:VEVENT",
   "SUMMARY:" ++ v.summary,
   "DESCRIPTION:" ++ v.description,
   "DTSTART;VALUE=DATE:" ++ yyyymmdd v.dtstart,
   "DTEND;VALUE=DATE:" ++ yyyymmdd v.dtend,
   "UID:" ++ v.uid,
   "DTSTAMP:" ++ yyyymmdd v.dtstamp ++ "T000000Z",
   "END:VEVENT"]

/-- Serialization model of `icalendar`: the content lines of the document. -/
def renderCalLines (c : ICal) : List String :=
  ["BEGIN:VCALENDAR",
   "VERSION:" ++ c.version,
   "PRODID:" ++ c.prodid,
   "X-WR-CALNAME:" ++ c.calname,
   "X-WR-CALDESC:" ++ c.caldesc] ++
  (c.components.map renderEventLines).flatten ++
  ["END:VCALENDAR"]

/-- `cal.to_ical()` model: CRLF-joined content lines. -/
def renderICal (c : ICal) : String :=
  String.intercalate "\r\n" (renderCalLines c) ++ "\r\n"

/-- Number of VEVENT blocks of a rendered document. -/
def countEventBlocks (ls : List String) : Nat :=
  ls.countP (fun l => l == "BEGIN:VEVENT")

/-- Well-formedness of a rendered document: one VCALENDAR wrapper and
balanced VEVENT blocks. -/
def wellFormedCal (ls : List String) : Bool :=
  (ls.head? == some "BEGIN:VCALENDAR") &&
  (ls.getLast? == some "END:VCALENDAR") &&
  (ls.countP (fun l => l == "BEGIN:VEVENT") == ls.countP (fun l => l == "END:VEVENT"))

/-- The configured output path `docs/school-lunch.ics`. -/
def outputPath : String := "docs/school-lunch.ics"

/-- `menu_type_data.get('name', 'School Lunch')` rendered as the calendar
name string. -/
def calNameOf (menu_type_data : JVal) : String :=
  match menu_type_data with
  | .jobj fs => pyStrTop (jfDd fs "name" (.jstr "School Lunch"))
  | _ => "School Lunch"

/-- The zero-event branch of `fetch_menu_simple.main`: a placeholder
calendar is still generated and written (open mode `wb` truncates, so the
file's prior content is discarded), then the run exits with code 1.  The
file system is modelled as a map from paths to contents. -/
def mainNoEventsRun (fs : String → Option String) (menu_type_data : JVal) (now : PyDate) :
    (String → Option String) × Nat :=
  let content := renderICal (generate_ics [] (calNameOf menu_type_data) now)
  (fun p => if p = outputPath then some content else fs p, 1)

end SimpleFetch

/-! ## Derived notions used by the statements -/

/-- Number of events carrying the date `d`. -/
def dateCount (d : PyDate) (evs : List Event) : Nat :=
  evs.countP (fun e => e.date == d)

/-- The per-menu contribution to a date's event count in `main`'s loop. -/
def menuDateCount (d : PyDate) (menu : JVal) : Nat :=
  match FromJson.menuStep menu with
  | some evs => dateCount d evs
  | none => 0

/-- Whether an event list is sorted ascending by date. -/
def sortedByDateAsc : List Event → Bool
  | [] => true
  | [_] => true
  | a :: b :: rest => dateLeB a.date b.date && sortedByDateAsc (b :: rest)

/-- Whether a menu record's declared `(year, month)` pair lies in a target
list (the inclusion test of `get_current_and_upcoming_menus`). -/
def menuMatches (menu : JVal) (tms : List (Int × Int)) : Bool :=
  match menu with
  | .jobj fs => FromJson.ymIn (JVal.jfD fs "year") (JVal.jfD fs "month") tms
  | _ => false

/-! ## Concrete test payloads -/

/-- A January 2025 menu whose only day (the 15th) serves Tacos. -/
def menuTacos : JVal := .jobj [("year", .jnum 2025), ("month", .jnum 0),
  ("days", .jarr [.jobj [("day", .jnum 15), ("items", .jarr [.jstr "Tacos"])]])]

/-- A second January 2025 menu whose only day (the 15th) serves Pizza. -/
def menuPizza : JVal := .jobj [("year", .jnum 2025), ("month", .jnum 0),
  ("days", .jarr [.jobj [("day", .jnum 15), ("items", .jarr [.jstr "Pizza"])]])]

/-- A day entry carrying only category-named keys (the spec's category
example), with no populated preference key. -/
def entreesDay : JVal := .jobj [("day", .jnum 15),
  ("Entrees", .jarr [.jstr "Pizza"]), ("Sides", .jarr [.jstr "Corn"]),
  ("", .jarr [.jstr "Milk"])]

/-- A menu whose single day entry is `entreesDay`. -/
def entreesMenu : JVal := .jobj [("year", .jnum 2025), ("month", .jnum 0),
  ("days", .jarr [entreesDay])]

/-- A menu whose days array lists the 20th before the 10th. -/
def menuOutOfOrder : JVal := .jobj [("year", .jnum 2025), ("month", .jnum 0),
  ("days", .jarr [.jobj [("day", .jnum 20), ("items", .jarr [.jstr "A"])],
                  .jobj [("day", .jnum 10), ("items", .jarr [.jstr "B"])]])]

/-- A days-format payload whose first entry has an unresolvable date and
whose second entry is fine. -/
def daysBadThenGood : JVal := .jobj [("days", .jarr [
  .jobj [("date", .jstr "not a real date"), ("items", .jarr [.jstr "A"])],
  .jobj [("date", .jstr "2025-01-15"), ("items", .jarr [.jstr "B"])]])]

/-- The same days-format payload with only the fine entry. -/
def daysGoodOnly : JVal := .jobj [("days", .jarr [
  .jobj [("date", .jstr "2025-01-15"), ("items", .jarr [.jstr "B"])]])]

/-- A payload with none of the recognized top-level keys. -/
def unknownPayload : JVal := .jobj [("foo", .jnum 1)]

/-- A recognized payload whose menu is published but empty. -/
def emptyDaysPayload : JVal := .jobj [("days", .jarr [])]

/-- A day entry whose item record has an empty `name` and a populated
`text` field. -/
def emptyNameDay : JVal := .jobj [("day", .jnum 15),
  ("items", .jarr [.jobj [("name", .jstr ""), ("text", .jstr "Taco")]])]

/-- A menu-type payload declaring a single menu for February 2025
(0-indexed month 1). -/
def febMenusPayload : JVal := .jobj [("menus", .jarr
  [.jobj [("year", .jnum 2025), ("month", .jnum 1)]])]

/-- The canonical event of `menuTacos`. -/
def evTacos : Event := ⟨⟨2025, 1, 15⟩, "School Lunch", "Tacos"⟩

/-- The canonical event of `menuPizza`. -/
def evPizza : Event := ⟨⟨2025, 1, 15⟩, "School Lunch", "Pizza"⟩

/-- A fixed generation timestamp used by witnesses. -/
def dJan1 : PyDate := ⟨2025, 1, 1⟩

/-- A one-menu list (October 2025, 0-indexed month 9) used by witnesses. -/
def octMenuList : List JVal := [.jobj [("year", .jnum 2025), ("month", .jnum 9)]]

/-! ## Helper lemmas -/

theorem daysInMonth_pos (y m : Nat) : 1 ≤ daysInMonth y m := by
  unfold daysInMonth
  split
  · split <;> omega
  · split <;> omega

theorem validDate_nextDay {p : PyDate} (h : validDate p) : validDate (nextDay p) := by
  have hp1 := daysInMonth_pos p.year (p.month + 1)
  have hp2 := daysInMonth_pos (p.year + 1) 1
  unfold validDate at h ⊢
  unfold nextDay
  split <;> (try split) <;> (try dsimp only) <;> omega

theorem validDate_addDays {p : PyDate} (h : validDate p) (k : Nat) :
    validDate (addDays p k) := by
  induction k with
  | zero => exact h
  | succ n ih => exact validDate_nextDay ih

theorem nextDay_year_bounds (p : PyDate) :
    p.year ≤ (nextDay p).year ∧ (nextDay p).year ≤ p.year + 1 := by
  unfold nextDay
  split
  · simp
  · split <;> simp

theorem addDays_year_bounds (p : PyDate) (k : Nat) :
    p.year ≤ (addDays p k).year ∧ (addDays p k).year ≤ p.year + k := by
  induction k with
  | zero => simp [addDays]
  | succ n ih =>
    have h := nextDay_year_bounds (addDays p n)
    have : addDays p (n + 1) = nextDay (addDays p n) := rfl
    rw [this]
    omega

theorem mainLoop_acc (ms : List JVal) :
    ∀ acc : List Event,
      FromJson.mainLoop acc ms = (FromJson.mainCollect ms).map (fun l => acc ++ l) := by
  induction ms with
  | nil => intro acc; simp [FromJson.mainLoop, FromJson.mainCollect]
  | cons m rest ih =>
    intro acc
    simp only [FromJson.mainCollect, FromJson.mainLoop]
    cases h : FromJson.menuStep m with
    | none => simp
    | some evs =>
      dsimp only
      rw [ih (acc ++ evs), ih ([] ++ evs)]
      cases FromJson.mainCollect rest <;> simp

theorem mainCollect_cons (m : JVal) (rest : List JVal) :
    FromJson.mainCollect (m :: rest) =
      match FromJson.menuStep m with
      | none => none
      | some evs => (FromJson.mainCollect rest).map (fun l => evs ++ l) := by
  simp only [FromJson.mainCollect, FromJson.mainLoop]
  cases h : FromJson.menuStep m with
  | none => simp
  | some evs =>
    dsimp only
    rw [mainLoop_acc]
    rfl

theorem mainCollect_eq_mapM (ms : List JVal) :
    FromJson.mainCollect ms = (ms.mapM FromJson.menuStep).map List.flatten := by
  induction ms with
  | nil => rfl
  | cons m rest ih =>
    rw [mainCollect_cons, List.mapM_cons]
    cases h : FromJson.menuStep m with
    | none => simp
    | some evs =>
      rw [ih]
      cases (rest.mapM FromJson.menuStep) <;> simp

theorem prefixed_line_ne {pre s t : String} (h : t.length < pre.length) :
    ((pre ++ s) == t) = false := by
  by_cases heq : (pre ++ s) = t
  · exfalso
    rw [← heq, String.length_append] at h
    omega
  · simp [heq]

theorem scanLoop_spec (year : Nat) (lines : List String) :
    ∀ (cur : Option (PyDate × List String)) (acc : List Event),
      PdfMenu.scanLoop year cur acc lines =
        acc ++ (match cur with
          | none => PdfMenu.scanFromStart year lines
          | some (d, m) => PdfMenu.scanActive year d m lines) := by
  induction lines with
  | nil =>
    intro cur acc
    cases cur with
    | none => simp [PdfMenu.scanLoop, PdfMenu.scanFromStart, PdfMenu.flushCur]
    | some p =>
      obtain ⟨d, m⟩ := p
      simp [PdfMenu.scanLoop, PdfMenu.scanActive]
  | cons l rest ih =>
    intro cur acc
    cases cur with
    | none =>
      simp only [PdfMenu.scanLoop, PdfMenu.scanFromStart]
      by_cases hs : (pyStrip l).isEmpty
      · simp only [hs, if_true, ih]
      · simp only [hs, if_false]
        cases he : _extract_date_from_line (pyStrip l) year with
        | none => simp [ih]
        | some d => simp [ih, PdfMenu.flushCur]
    | some p =>
      obtain ⟨d0, menu⟩ := p
      simp only [PdfMenu.scanLoop, PdfMenu.scanActive]
      by_cases hs : (pyStrip l).isEmpty
      · simp only [hs, if_true, ih]
      · simp only [hs, if_false]
        cases he : _extract_date_from_line (pyStrip l) year with
        | none => simp [ih]
        | some d => simp [ih]

theorem append_isEmpty_false {pre : String} (t : String) (hp : pre.length ≠ 0) :
    ((pre ++ t).isEmpty) = false := by
  rw [Bool.eq_false_iff]
  intro h
  have h2 := (String.isEmpty_iff _).mp h
  have hl := congrArg String.length h2
  rw [String.length_append] at hl
  simp at hl
  exact hp hl.1

theorem lookupField_isSome (fs : List (String × JVal)) (k : String) :
    (JVal.lookupField fs k).isSome = fs.any (fun p => p.1 == k) := by
  induction fs with
  | nil => rfl
  | cons p rest ih =>
    obtain ⟨pk, pv⟩ := p
    by_cases hk : pk = k
    · simp [JVal.lookupField, hk]
    · simp [JVal.lookupField, hk, ih]

theorem parseMenuKey_lookup (fs : List (String × JVal)) :
    FetchMenu.parseMenuKey fs =
      match JVal.lookupField fs "menu" with
      | some m => FetchMenu.parse_menu m
      | none => some [] := by
  induction fs with
  | nil => rfl
  | cons p rest ih =>
    obtain ⟨k, v⟩ := p
    by_cases hk : k = "menu"
    · simp [FetchMenu.parseMenuKey, JVal.lookupField, hk]
    · simp [FetchMenu.parseMenuKey, JVal.lookupField, hk, ih]

theorem processDay_title {year : JVal} {month : Int} {d : JVal} {e : Event}
    (h : FromJson.processDay year month d = some e) : e.title = "School Lunch" := by
  unfold FromJson.processDay at h
  split at h
  · cases h
  · split at h
    · cases h
    · split at h
      · cases h
      · cases h; rfl

/-! ## Claim theorems -/

/-- C9: every emitted calendar block is an all-day entry with
`dtstart = date`, `dtend = date + 1 day` (end exclusive), and uid
`<YYYYMMDD>-lunch@automated-tasks`; the uid is determined by the date
alone. -/
theorem c9_allday_uid :
    (∀ (events : List Event) (calendar_name : String) (now : PyDate) (v : VEvent),
        v ∈ (FromJson.generate_ics events calendar_name now).components →
        ∃ e ∈ events, v = FromJson.eventBlock now e ∧ v.dtstart = e.date ∧
          v.dtend = nextDay e.date ∧ v.uid = yyyymmdd e.date ++ uidSuffix) ∧
    (∀ (now1 now2 : PyDate) (e1 e2 : Event), e1.date = e2.date →
        (FromJson.eventBlock now1 e1).uid = (FromJson.eventBlock now2 e2).uid) := by
  constructor
  · intro events name now v hv
    simp only [FromJson.generate_ics, List.mem_map] at hv
    obtain ⟨e, he, rfl⟩ := hv
    exact ⟨e, he, rfl, rfl, rfl, rfl⟩
  · intro now1 now2 e1 e2 h
    simp [FromJson.eventBlock, h]

/-- Witness for C9 at a concrete event list and dates. -/
theorem c9_allday_uid_witness :
    ((FromJson.eventBlock dJan1 evTacos) ∈
        (FromJson.generate_ics [evTacos] "School Lunch Menu" dJan1).components ∧
      (∃ e ∈ [evTacos], FromJson.eventBlock dJan1 evTacos = FromJson.eventBlock dJan1 e ∧
        (FromJson.eventBlock dJan1 evTacos).dtstart = e.date ∧
        (FromJson.eventBlock dJan1 evTacos).dtend = nextDay e.date ∧
        (FromJson.eventBlock dJan1 evTacos).uid = yyyymmdd e.date ++ uidSuffix)) ∧
    evTacos.date = evPizza.date ∧
    (FromJson.eventBlock dJan1 evTacos).uid = (FromJson.eventBlock ⟨2025, 2, 2⟩ evPizza).uid :=
  ⟨⟨by decide,
      c9_allday_uid.1 [evTacos] "School Lunch Menu" dJan1 _ (by decide)⟩,
    by decide,
    c9_allday_uid.2 dJan1 ⟨2025, 2, 2⟩ evTacos evPizza (by decide)⟩

/-- C10: a zero-event run of `fetch_menu_simple.main` still writes a
well-formed calendar with zero VEVENT blocks to the configured output
path, fully replacing whatever was there (the written content does not
depend on the prior file state), and terminates with exit code 1. -/
theorem c10_zero_event_write :
    ∀ (fs : String → Option String) (mt : JVal) (now : PyDate),
      (SimpleFetch.mainNoEventsRun fs mt now).1 SimpleFetch.outputPath =
        some (SimpleFetch.renderICal
          (SimpleFetch.generate_ics [] (SimpleFetch.calNameOf mt) now)) ∧
      (SimpleFetch.mainNoEventsRun fs mt now).2 = 1 ∧
      SimpleFetch.countEventBlocks (SimpleFetch.renderCalLines
        (SimpleFetch.generate_ics [] (SimpleFetch.calNameOf mt) now)) = 0 ∧
      SimpleFetch.wellFormedCal (SimpleFetch.renderCalLines
        (SimpleFetch.generate_ics [] (SimpleFetch.calNameOf mt) now)) = true := by
  intro fs mt now
  have hname1 : (("X-WR-CALNAME:" ++ SimpleFetch.calNameOf mt) == "BEGIN:VEVENT") = false :=
    prefixed_line_ne (by decide)
  have hname2 : (("X-WR-CALNAME:" ++ SimpleFetch.calNameOf mt) == "END:VEVENT") = false :=
    prefixed_line_ne (by decide)
  refine ⟨by simp [SimpleFetch.mainNoEventsRun], rfl, ?_, ?_⟩
  · simp [SimpleFetch.countEventBlocks, SimpleFetch.renderCalLines, SimpleFetch.generate_ics,
      List.countP_cons, hname1]
  · simp [SimpleFetch.wellFormedCal, SimpleFetch.renderCalLines, SimpleFetch.generate_ics,
      List.countP_cons, hname1, hname2, List.getLast?]

/-- C1 counterexample: two payloads for January 2025 each yield an event
for the 15th; `main`'s aggregation keeps BOTH (no per-date collapse, no
last-write-wins), so the final set has two events with equal dates. -/
theorem c1_dedup_counterexample :
    FromJson.mainCollect [menuTacos, menuPizza] = some [evTacos, evPizza] ∧
    evTacos.date = evPizza.date ∧
    dateCount ⟨2025, 1, 15⟩ [evTacos, evPizza] = 2 := by decide

/-- C2 counterexample: the claim's own category example (`Entrees`/`Sides`
day entry) produces NO event at all — and in particular no event titled
`Lunch: Pizza` — because the code only reads the fixed preference keys and
ignores category structure. -/
theorem c2_entrees_counterexample :
    FromJson.parse_menu_to_events entreesMenu = some [] ∧
    ¬ ∃ evs, FromJson.parse_menu_to_events entreesMenu = some evs ∧
        ∃ e ∈ evs, e.title = "Lunch: Pizza" := by
  refine ⟨by decide, ?_⟩
  rintro ⟨evs, hevs, e, he, -⟩
  rw [show FromJson.parse_menu_to_events entreesMenu = some [] from by decide] at hevs
  cases hevs
  simp at he

/-- C3 counterexample: a days array listing the 20th before the 10th makes
`main` hand the emitter an unsorted event list (no sort is applied). -/
theorem c3_sorted_counterexample :
    FromJson.mainCollect [menuOutOfOrder] =
      some [⟨⟨2025, 1, 20⟩, "School Lunch", "A"⟩, ⟨⟨2025, 1, 10⟩, "School Lunch", "B"⟩] ∧
    sortedByDateAsc [⟨⟨2025, 1, 20⟩, "School Lunch", "A"⟩,
      ⟨⟨2025, 1, 10⟩, "School Lunch", "B"⟩] = false := by decide

/-- C4 counterexample: in `fetch_menu.py`'s days-format an unresolvable
date in one day entry aborts the WHOLE payload parse (uncaught
`ValueError`), so the following well-formed entry is not converted —
even though alone it would be. -/
theorem c4_skip_counterexample :
    FetchMenu.parse_menu daysBadThenGood = none ∧
    FetchMenu.parse_menu daysGoodOnly =
      some [⟨⟨2025, 1, 15⟩, "School Lunch", "B"⟩] := by decide

/-- C5 counterexample: an unrecognized payload and a published-but-empty
payload produce identical parser results (an empty list), so the
unrecognized-shape condition is not a distinguishable signal. -/
theorem c5_unrecognized_counterexample :
    FetchMenu.parse_menu unknownPayload = some [] ∧
    FetchMenu.parse_menu emptyDaysPayload = some [] ∧
    FetchMenu.parse_menu unknownPayload = FetchMenu.parse_menu emptyDaysPayload := by decide

/-- C6 counterexample: for the line `January 15, 2024 Pizza` the matched
date text is `January 15, 2024`, but the kept first content line is
`2024 Pizza` — the year survives date removal — rather than the claim's
`Pizza`. -/
theorem c6_scan_counterexample :
    PdfMenu.parse_menu_text 2024 "January 15, 2024 Pizza\nCorn" =
      [⟨⟨2024, 1, 15⟩, "School Lunch", "2024 Pizza\nCorn"⟩] ∧
    "2024 Pizza\nCorn" ≠ "Pizza\nCorn" := by decide

/-- C7 counterexample: an item record with a present-but-empty `name` and a
populated `text` is rendered as the `text` value, not as the first present
field (`name`, which would render empty). -/
theorem c7_fieldpref_counterexample :
    FromJson.extract_menu_items emptyNameDay = some ["Taco"] ∧
    ("Taco" : String) ≠ "" := by decide

set_option maxRecDepth 8000 in
/-- C8 counterexample: run on 2025-01-31 with `months_ahead = 2`, the
window built from `now + 32*i days` is January, March, April — it skips
February (the month immediately following) and includes April (three
months ahead) — so a February payload is excluded, contradicting the
claimed calendar-month window. -/
theorem c8_window_counterexample :
    FromJson.get_current_and_upcoming_menus febMenusPayload 2 ⟨2025, 1, 31⟩ = some [] ∧
    FromJson.target_months ⟨2025, 1, 31⟩ 2 = [(2025, 0), (2025, 2), (2025, 3)] :=
  ⟨rfl, by decide⟩

/-- C1 amended: events from all payloads are concatenated in processing
order with no per-date collapse: a date's event count in the final list is
the SUM over payloads of that payload's events for the date (duplicates
are all retained; no last-write-wins merge exists). -/
theorem c1_amended_per_date_count :
    ∀ (menus : List JVal) (evs : List Event) (d : PyDate),
      FromJson.mainCollect menus = some evs →
      dateCount d evs = (menus.map (menuDateCount d)).sum := by
  intro menus
  induction menus with
  | nil =>
    intro evs d h
    simp [FromJson.mainCollect, FromJson.mainLoop] at h
    subst h
    simp [dateCount]
  | cons m rest ih =>
    intro evs d h
    rw [mainCollect_cons] at h
    cases hm : FromJson.menuStep m with
    | none => rw [hm] at h; cases h
    | some evs1 =>
      rw [hm] at h
      dsimp only at h
      cases hr : FromJson.mainCollect rest with
      | none => rw [hr] at h; cases h
      | some evs2 =>
        rw [hr] at h
        simp only [Option.map_some'] at h
        cases h
        simp only [List.map_cons, List.sum_cons, menuDateCount, hm]
        rw [dateCount, List.countP_append]
        rw [← ih evs2 d hr]
        rfl

/-- Witness for C1 amended at a concrete two-payload input. -/
theorem c1_amended_per_date_count_witness :
    FromJson.mainCollect [menuTacos, menuPizza] = some [evTacos, evPizza] ∧
    dateCount ⟨2025, 1, 15⟩ [evTacos, evPizza] =
      ([menuTacos, menuPizza].map (menuDateCount ⟨2025, 1, 15⟩)).sum :=
  ⟨by decide, c1_amended_per_date_count [menuTacos, menuPizza] [evTacos, evPizza]
    ⟨2025, 1, 15⟩ (by decide)⟩

/-- C2 amended: the assembler never derives a category title — every event
produced by `parse_menu_to_events` has the fixed title `School Lunch`
(category-keyed day entries contribute no event at all, per the
counterexample). -/
theorem c2_amended_title_fixed :
    ∀ (menu : JVal) (evs : List Event),
      FromJson.parse_menu_to_events menu = some evs →
      ∀ e ∈ evs, e.title = "School Lunch" := by
  intro menu evs h e he
  unfold FromJson.parse_menu_to_events at h
  split at h
  · cases h
  · split at h
    · rw [Option.map_eq_some'] at h
      obtain ⟨mp, -, hev⟩ := h
      subst hev
      simp at he
    · cases h
  · split at h
    · cases h
    · split at h
      · split at h
        · rw [Option.map_eq_some'] at h
          obtain ⟨mp, -, hev⟩ := h
          subst hev
          simp at he
        · cases h
      · split at h
        · cases h
        · split at h
          · split at h
            · cases h
            · cases h
              simp only [FromJson.parseDaysJson, List.mem_filterMap] at he
              obtain ⟨d, -, hd⟩ := he
              exact processDay_title hd
          · cases h

/-- Witness for C2 amended at a concrete payload. -/
theorem c2_amended_title_fixed_witness :
    FromJson.parse_menu_to_events menuTacos = some [evTacos] ∧
    evTacos ∈ [evTacos] ∧ evTacos.title = "School Lunch" :=
  ⟨by decide, by decide,
    c2_amended_title_fixed menuTacos [evTacos] (by decide) evTacos (by decide)⟩

/-- C3 amended: no sort is applied — the final event list is exactly the
concatenation (flatten) of each payload's own event list in the fixed
processing order, so it is ascending only when the sources are. -/
theorem c3_amended_source_order :
    ∀ menus : List JVal,
      FromJson.mainCollect menus = (menus.mapM FromJson.menuStep).map List.flatten :=
  mainCollect_eq_mapM

/-- C4 amended: a day entry whose date cannot be resolved is skipped with
processing continuing in the date-map shape of `fetch_menu.py` and in the
day-array shape of `fetch_from_json.py`; in `fetch_menu.py`'s days/items
list shapes, however, an unresolvable date aborts the whole payload parse
(see the counterexample). -/
theorem c4_amended_skip_scope :
    (∀ (k : String) (v : JVal) (rest : List (String × JVal)),
        dateutil_parse false k = none →
        FetchMenu._parse_dates_format (.jobj ((k, v) :: rest)) =
          FetchMenu._parse_dates_format (.jobj rest)) ∧
    (∀ (year : JVal) (month : Int) (d : JVal) (rest : List JVal),
        FromJson.jsonDayDate year month d = none →
        FromJson.parseDaysJson year month (d :: rest) =
          FromJson.parseDaysJson year month rest) := by
  constructor
  · intro k v rest h
    simp [FetchMenu._parse_dates_format, List.filterMap_cons, FetchMenu.datesStep, h]
  · intro year month d rest h
    simp [FromJson.parseDaysJson, List.filterMap_cons, FromJson.processDay, h]

/-- Witness for C4 amended at concrete entries. -/
theorem c4_amended_skip_scope_witness :
    FetchMenu._parse_dates_format (.jobj [("garbage", .jarr [.jstr "A"]),
        ("2025-01-15", .jarr [.jstr "B"])]) =
      FetchMenu._parse_dates_format (.jobj [("2025-01-15", .jarr [.jstr "B"])]) ∧
    FromJson.parseDaysJson (.jnum 2025) 1
        [.jobj [("day", .jnum 0)], .jobj [("day", .jnum 15), ("items", .jarr [.jstr "B"])]] =
      FromJson.parseDaysJson (.jnum 2025) 1
        [.jobj [("day", .jnum 15), ("items", .jarr [.jstr "B"])]] :=
  ⟨c4_amended_skip_scope.1 "garbage" (.jarr [.jstr "A"])
      [("2025-01-15", .jarr [.jstr "B"])] (by decide),
    c4_amended_skip_scope.2 (.jnum 2025) 1 (.jobj [("day", .jnum 0)])
      [.jobj [("day", .jnum 15), ("items", .jarr [.jstr "B"])]] (by decide)⟩

/-- C5 amended: an unrecognized payload yields zero events, but only as a
plain empty list indistinguishable at the parser level from a
published-but-empty menu; the caller merely treats every zero-event parse
as fatal (exit code 1). -/
theorem c5_amended_empty_result :
    ∀ v : JVal, unrecognizedShape v = true →
      FetchMenu.parse_menu v = some [] ∧ FetchMenu.mainResult v = some (Sum.inl 1) := by
  intro v hv
  have hp : FetchMenu.parse_menu v = some [] := by
    cases v with
    | jobj fs =>
      simp only [unrecognizedShape, Bool.and_eq_true, Option.isNone_iff_eq_none] at hv
      obtain ⟨⟨⟨h1, h2⟩, h3⟩, h4⟩ := hv
      simp [FetchMenu.parse_menu, h1, h2, h3, parseMenuKey_lookup, h4]
    | jnull => rfl
    | jbool b => rfl
    | jnum n => rfl
    | jstr s => rfl
    | jarr xs => rfl
  exact ⟨hp, by simp [FetchMenu.mainResult, hp]⟩

/-- Witness for C5 amended at a concrete unrecognized payload. -/
theorem c5_amended_empty_result_witness :
    unrecognizedShape unknownPayload = true ∧
    FetchMenu.parse_menu unknownPayload = some [] ∧
    FetchMenu.mainResult unknownPayload = some (Sum.inl 1) :=
  ⟨by decide, (c5_amended_empty_result unknownPayload (by decide)).1,
    (c5_amended_empty_result unknownPayload (by decide)).2⟩

/-- C6 amended: the line scan equals the direct-style specification scan:
blank (stripped-empty) lines are always skipped; a stripped line matching a
date pattern flushes the previous date (producing an entry only when it
accumulated content lines), starts a new date, and keeps the residue of the
three anchored removal substitutions — which can retain parts of the
matched date such as a trailing year — as the first content line when
non-empty; non-matching stripped lines append to the active date and are
discarded before any date; the final date is flushed only if it has
content lines. -/
theorem c6_amended_scan_refinement :
    ∀ (year : Nat) (text : String),
      PdfMenu.parse_menu_text year text = PdfMenu.scanFromStart year (pySplitNl text) := by
  intro year text
  unfold PdfMenu.parse_menu_text
  rw [scanLoop_spec]
  simp

/-- C7 amended: record items are rendered by the first TRUTHY (present and
non-empty) field among `name`, `recipeName`, `text`, `label` — a present
but empty field falls through — with `str(record)` as the fallback when
all four are falsy; and item text comes from the first populated
preference key, later keys being ignored. -/
theorem c7_amended_truthy_pref :
    (∀ fs : List (String × JVal),
      (JVal.truthy (JVal.jfD fs "name") = true →
        FromJson.renderStep (.jobj fs) = some (JVal.pyStrTop (JVal.jfD fs "name"))) ∧
      (JVal.truthy (JVal.jfD fs "name") = false →
       JVal.truthy (JVal.jfD fs "recipeName") = true →
        FromJson.renderStep (.jobj fs) = some (JVal.pyStrTop (JVal.jfD fs "recipeName"))) ∧
      (JVal.truthy (JVal.jfD fs "name") = false →
       JVal.truthy (JVal.jfD fs "recipeName") = false →
       JVal.truthy (JVal.jfD fs "text") = true →
        FromJson.renderStep (.jobj fs) = some (JVal.pyStrTop (JVal.jfD fs "text"))) ∧
      (JVal.truthy (JVal.jfD fs "name") = false →
       JVal.truthy (JVal.jfD fs "recipeName") = false →
       JVal.truthy (JVal.jfD fs "text") = false →
       JVal.truthy (JVal.jfD fs "label") = true →
        FromJson.renderStep (.jobj fs) = some (JVal.pyStrTop (JVal.jfD fs "label"))) ∧
      (JVal.truthy (JVal.jfD fs "name") = false →
       JVal.truthy (JVal.jfD fs "recipeName") = false →
       JVal.truthy (JVal.jfD fs "text") = false →
       JVal.truthy (JVal.jfD fs "label") = false →
        FromJson.renderStep (.jobj fs) = some (JVal.pyStrTop (.jobj fs)))) ∧
    (∀ (fs : List (String × JVal)) (v : JVal) (its : List JVal),
        JVal.lookupField fs "menu_items" = some v → JVal.truthy v = true →
        JVal.pyIter v = some its →
        FromJson.extract_menu_items (.jobj fs) =
          some (its.filterMap FromJson.renderStep)) ∧
    (∀ (fs : List (String × JVal)) (v : JVal) (its : List JVal),
        JVal.truthy (JVal.jfD fs "menu_items") = false →
        JVal.lookupField fs "items" = some v → JVal.truthy v = true →
        JVal.pyIter v = some its →
        FromJson.extract_menu_items (.jobj fs) =
          some (its.filterMap FromJson.renderStep)) := by
  refine ⟨?_, ?_, ?_⟩
  · intro fs
    refine ⟨?_, ?_, ?_, ?_, ?_⟩
    · intro h1
      simp [FromJson.renderStep, JVal.pyOr, h1]
    · intro h1 h2
      simp [FromJson.renderStep, JVal.pyOr, h1, h2]
    · intro h1 h2 h3
      simp [FromJson.renderStep, JVal.pyOr, h1, h2, h3]
    · intro h1 h2 h3 h4
      simp [FromJson.renderStep, JVal.pyOr, h1, h2, h3, h4]
    · intro h1 h2 h3 h4
      have hlen : (("\x7b" ++ String.intercalate ", " (JVal.pyReprFields fs)).length ≠ 0) := by
        rw [String.length_append]
        have h7b : ("\x7b" : String).length = 1 := by decide
        omega
      have hne : (((JVal.jobj fs).pyRepr).isEmpty) = false := by
        simp only [JVal.pyRepr]
        exact append_isEmpty_false _ hlen
      have htr : JVal.truthy (JVal.jstr ((JVal.jobj fs).pyRepr)) = true := by
        simp [JVal.truthy, hne]
      simp [FromJson.renderStep, JVal.pyOr, h1, h2, h3, h4, htr, JVal.pyStrTop]
  · intro fs v its hl ht hi
    have hany : fs.any (fun p => p.1 == "menu_items") = true := by
      rw [← lookupField_isSome, hl]; rfl
    simp [FromJson.extract_menu_items, FromJson.firstPopulated, FromJson.possible_keys,
      JVal.pyContains, JVal.jIndex, hany, hl, ht, hi]
  · intro fs v its hmf hl ht hi
    have hani : fs.any (fun p => p.1 == "items") = true := by
      rw [← lookupField_isSome, hl]; rfl
    cases hml : JVal.lookupField fs "menu_items" with
    | none =>
      have hanm : fs.any (fun p => p.1 == "menu_items") = false := by
        rw [← lookupField_isSome, hml]; rfl
      simp [FromJson.extract_menu_items, FromJson.firstPopulated, FromJson.possible_keys,
        JVal.pyContains, JVal.jIndex, hanm, hani, hl, ht, hi]
    | some w =>
      have hw : JVal.truthy w = false := by
        have hjf : JVal.jfD fs "menu_items" = w := by simp [JVal.jfD, hml]
        rw [← hjf]; exact hmf
      have hanm : fs.any (fun p => p.1 == "menu_items") = true := by
        rw [← lookupField_isSome, hml]; rfl
      simp [FromJson.extract_menu_items, FromJson.firstPopulated, FromJson.possible_keys,
        JVal.pyContains, JVal.jIndex, hanm, hml, hw, hani, hl, ht, hi]

/-- Witness for C7 amended at concrete records. -/
theorem c7_amended_truthy_pref_witness :
    FromJson.renderStep (.jobj [("name", .jstr ""), ("text", .jstr "Taco")]) =
      some (JVal.pyStrTop (JVal.jfD [("name", .jstr ""), ("text", .jstr "Taco")] "text")) ∧
    FromJson.extract_menu_items
        (.jobj [("menu_items", .jarr [.jstr "X"]), ("items", .jarr [.jstr "Y"])]) =
      some (([JVal.jstr "X"] : List JVal).filterMap FromJson.renderStep) :=
  ⟨((c7_amended_truthy_pref.1 _).2.2.1) (by rfl) (by rfl) (by rfl),
    c7_amended_truthy_pref.2.1 _ (.jarr [.jstr "X"]) [.jstr "X"]
      (by rfl) (by rfl) (by rfl)⟩

theorem gcuLoop_filter (tms : List (Int × Int))
    (ht : ∀ y m : Int, (y, m) ∈ tms → mkDatetime y (m + 1) 1 ≠ none) :
    ∀ ms : List JVal, (∀ m ∈ ms, ∃ fs, m = JVal.jobj fs) →
      FromJson.gcuLoop tms ms = some (ms.filter (fun m => menuMatches m tms)) := by
  intro ms
  induction ms with
  | nil => intro _; rfl
  | cons m rest ih =>
    intro h
    obtain ⟨fs, rfl⟩ := h m (by simp)
    have hrest := ih (fun x hx => h x (by simp [hx]))
    simp only [FromJson.gcuLoop]
    by_cases hym : FromJson.ymIn (JVal.jfD fs "year") (JVal.jfD fs "month") tms = true
    · have hmm : menuMatches (JVal.jobj fs) tms = true := by
        simpa [menuMatches] using hym
      unfold FromJson.ymIn at hym
      cases hy : JVal.asNum (JVal.jfD fs "year") with
      | none => rw [hy] at hym; cases hym
      | some y =>
        cases hmo : JVal.asNum (JVal.jfD fs "month") with
        | none => rw [hy, hmo] at hym; cases hym
        | some mo =>
          rw [hy, hmo] at hym
          dsimp only at hym
          have hmem : (y, mo) ∈ tms := by simpa using hym
          have hmk := ht y mo hmem
          cases hmkv : mkDatetime y (mo + 1) 1 with
          | none => exact absurd hmkv hmk
          | some dd =>
            rw [show FromJson.ymIn (JVal.jfD fs "year") (JVal.jfD fs "month") tms = true by
              unfold FromJson.ymIn; rw [hy, hmo]; simpa using hym]
            simp only [if_true, hy, hmo, hmkv]
            rw [hrest]
            simp [List.filter_cons, hmm]
    · have hmm : menuMatches (JVal.jobj fs) tms = false := by
        simp only [menuMatches]
        exact Bool.not_eq_true _ |>.mp hym
      rw [if_neg hym, hrest]
      simp [List.filter_cons, hmm]

/-- C8 amended: the window retains exactly the payloads whose declared
`(year, 0-indexed month)` equals the year/month of `run date + 32*i days`
for some `0 ≤ i ≤ N`.  This usually — but not always — coincides with "the
run month and the `N` months following it": near a month's end the 32-day
stride can skip the immediately following month and include month `N+1`
(see the counterexample). -/
theorem c8_amended_window_formula :
    ∀ (ms : List JVal) (N : Nat) (now : PyDate),
      validDate now → now.year + 32 * N ≤ 9999 →
      (∀ m ∈ ms, ∃ fs, m = JVal.jobj fs) →
      FromJson.get_current_and_upcoming_menus (.jobj [("menus", .jarr ms)]) N now =
        some (ms.filter (fun m => menuMatches m (FromJson.target_months now N))) ∧
      (∀ y mo : Int, (y, mo) ∈ FromJson.target_months now N ↔
        ∃ i, i ≤ N ∧ y = ((addDays now (32 * i)).year : Int) ∧
          mo = ((addDays now (32 * i)).month : Int) - 1) := by
  intro ms N now hval hyr hobj
  have hmemiff : ∀ y mo : Int, (y, mo) ∈ FromJson.target_months now N ↔
      ∃ i, i ≤ N ∧ y = ((addDays now (32 * i)).year : Int) ∧
        mo = ((addDays now (32 * i)).month : Int) - 1 := by
    intro y mo
    simp only [FromJson.target_months, List.mem_map, List.mem_range, Prod.mk.injEq]
    constructor
    · rintro ⟨i, hi, hy, hm⟩
      exact ⟨i, by omega, hy.symm, hm.symm⟩
    · rintro ⟨i, hi, hy, hm⟩
      exact ⟨i, by omega, hy.symm, hm.symm⟩
  refine ⟨?_, hmemiff⟩
  have ht : ∀ y m : Int, (y, m) ∈ FromJson.target_months now N →
      mkDatetime y (m + 1) 1 ≠ none := by
    intro y m hm
    obtain ⟨i, hiN, hy, hmm⟩ := (hmemiff y m).mp hm
    have hv := validDate_addDays hval (32 * i)
    have hb := addDays_year_bounds now (32 * i)
    obtain ⟨hv1, hv2, hv3, hv4, hv5⟩ := hv
    have hd9999 : (addDays now (32 * i)).year ≤ 9999 := by
      have h32 : 32 * i ≤ 32 * N := Nat.mul_le_mul_left 32 hiN
      omega
    have hdpos := daysInMonth_pos (addDays now (32 * i)).year (addDays now (32 * i)).month
    subst hy
    subst hmm
    have hm1 : ((addDays now (32 * i)).month : Int) - 1 + 1 =
        ((addDays now (32 * i)).month : Int) := by omega
    rw [hm1]
    unfold mkDatetime
    split
    · simp
    · rename_i hc
      exfalso
      apply hc
      refine ⟨?_, ?_, ?_, ?_, ?_, ?_⟩
      · exact_mod_cast hv1
      · exact_mod_cast hd9999
      · exact_mod_cast hv2
      · exact_mod_cast hv3
      · norm_num
      · rw [Int.toNat_natCast, Int.toNat_natCast]
        exact_mod_cast hdpos
  have h1 : JVal.pyContains (.jobj [("menus", .jarr ms)]) "menus" = some true := by
    simp [JVal.pyContains]
  have h2 : JVal.jIndex (.jobj [("menus", .jarr ms)]) "menus" = some (.jarr ms) := by
    simp [JVal.jIndex, JVal.lookupField]
  simp only [FromJson.get_current_and_upcoming_menus, h1, h2, JVal.pyIter]
  exact gcuLoop_filter _ ht ms hobj

set_option maxRecDepth 8000 in
/-- Witness for C8 amended at a concrete menu list and run date. -/
theorem c8_amended_window_formula_witness :
    FromJson.get_current_and_upcoming_menus (.jobj [("menus", .jarr octMenuList)]) 1
        ⟨2025, 10, 1⟩ =
      some (octMenuList.filter (fun m =>
        menuMatches m (FromJson.target_months ⟨2025, 10, 1⟩ 1))) :=
  (c8_amended_window_formula octMenuList 1 ⟨2025, 10, 1⟩ (by decide) (by norm_num)
    (by
      intro m hm
      simp only [octMenuList, List.mem_singleton] at hm
      exact ⟨_, hm⟩)).1
